import Mathlib

/-!
Verification of the LolliPop orchestration pipeline against its specification.

The development shallowly embeds the parts of `lollipop/preprocessors.py` and
`lollipop/cli/deconvolute.py` that the specification's claims are about:
dataframes become lists of rows (a row is a list of column-name/cell pairs),
pandas column operations become key-aware list maps and filters, and fallible
steps return `Except Err`.
-/

set_option autoImplicit false

namespace LolliPop

/-- A single cell of a tally dataframe: missing (`NaN`), a string, or a number.
Dates are modelled as already-parsed numbers (day ordinals), so the
`pd.to_datetime` conversion is the identity on them. -/
inductive Cell where
  | nan : Cell
  | str : String → Cell
  | num : Rat → Cell
deriving DecidableEq, Repr

/-- Failure outcomes of a run. `configError` stands for the assertion-guarded
configuration failures the spec calls ConfigError, `dataError` for the explicit
`sys.exit(1)` data failure; the remaining constructors are the Python exception
kinds the code can raise. -/
inductive Err where
  | configError : Err
  | dataError : Err
  | typeError : Err
  | keyError : Err
  | valueError : Err
  | nameError : Err
deriving DecidableEq, Repr

/-- A dataframe row: cells keyed by column name, in column order. -/
abbrev Row := List (String × Cell)

/-- A dataframe: column labels plus rows. -/
structure DF where
  cols : List String
  rows : List Row
deriving DecidableEq, Repr

/-- Cell of row `r` at column `c` (first matching label, `NaN` when absent). -/
def getCell (r : Row) (c : String) : Cell := (r.lookup c).getD Cell.nan

/-- `df.rename(columns=m)` on a single label. -/
def renameCol (m : List (String × String)) (c : String) : String := (m.lookup c).getD c

/-- `df.rename(columns=m)`. -/
def renameDF (m : List (String × String)) (df : DF) : DF :=
  { cols := df.cols.map (renameCol m),
    rows := df.rows.map (fun r => r.map (fun p => (renameCol m p.1, p.2))) }

/-- `df.drop(names, axis=1, errors="ignore")`. -/
def dropColsDF (names : List String) (df : DF) : DF :=
  { cols := df.cols.filter (fun c => !names.contains c),
    rows := df.rows.map (fun r => r.filter (fun p => !names.contains p.1)) }

/-- `df.dropna(subset=subset)`; pandas raises `KeyError` when a subset column
is not a column of the frame. -/
def dropnaDF (subset : List String) (df : DF) : Except Err DF :=
  if subset.all (fun c => df.cols.contains c) then
    .ok { df with
          rows := df.rows.filter (fun r => subset.all (fun c => getCell r c != Cell.nan)) }
  else .error .keyError

/-- `str()` of a cell, as `.astype(str)` renders it. -/
def cellStr : Cell → String
  | .nan => "nan"
  | .str s => s
  | .num q => if q.den = 1 then toString q.num else toString q

/-- `pos.astype(str) + base`: string concatenation, propagating `NaN` from the
`base` column as pandas string addition does. -/
def sigCell (r : Row) : Cell :=
  match getCell r "base" with
  | .nan => Cell.nan
  | b => Cell.str (cellStr (getCell r "pos") ++ cellStr b)

/-- `df[c] = f(row)`: overwrite column `c` in place when it exists, otherwise
append it as the last column (pandas assignment semantics). -/
def setOrAppendCol (c : String) (f : Row → Cell) (df : DF) : DF :=
  if df.cols.contains c then
    { df with rows := df.rows.map (fun r => r.map (fun p => if p.1 = c then (p.1, f r) else p)) }
  else
    { cols := df.cols ++ [c], rows := df.rows.map (fun r => r ++ [(c, f r)]) }

/-- The mutation-signature derivation of `general_preprocess`: when both `base`
and `pos` columns are present, create `mutations = str(pos) + base`. -/
def signatureDF (df : DF) : DF :=
  if df.cols.contains "base" && df.cols.contains "pos" then
    setOrAppendCol "mutations" sigCell df
  else df

/-- `pd.to_datetime(df["date"])`: in this model dates are already parsed, so
only the pandas `KeyError` on a missing `date` column is kept. -/
def toDatetimeDF (df : DF) : Except Err DF :=
  if df.cols.contains "date" then .ok df else .error .keyError

/-- Pandas `>=` on cells: comparisons involving `NaN`/non-numbers are false. -/
def cellGe (a b : Cell) : Bool :=
  match a, b with
  | .num x, .num y => decide (y ≤ x)
  | _, _ => false

/-- Pandas `<` on cells: comparisons involving `NaN`/non-numbers are false. -/
def cellLt (a b : Cell) : Bool :=
  match a, b with
  | .num x, .num y => decide (x < y)
  | _, _ => false

/-- The `[start_date, end_date)` filter of `general_preprocess`, skipped in
`no_date` mode. -/
def dateRangeFilter (noDate : Bool) (startDate endDate : Option Rat) (df : DF) : DF :=
  if noDate then df
  else
    let df1 :=
      match startDate with
      | some s => { df with rows := df.rows.filter (fun r => cellGe (getCell r "date") (Cell.num s)) }
      | none => df
    match endDate with
    | some e => { df1 with rows := df1.rows.filter (fun r => cellLt (getCell r "date") (Cell.num e)) }
    | none => df1

/-- The deletion-removal step: drop rows whose `base` is `"-"` when a `base`
column is present (the missing-column case only logs a warning). -/
def removeDeletionsDF (removeDeletions : Bool) (df : DF) : DF :=
  if removeDeletions && df.cols.contains "base" then
    { df with rows := df.rows.filter (fun r => !(getCell r "base" == Cell.str "-")) }
  else df

/-- The `to_drop` loop: for each variant column present, drop rows whose tag in
that column is in `to_drop`. -/
def dropTaggedDF (variantsList toDrop : List String) (df : DF) : DF :=
  variantsList.foldl
    (fun d v =>
      if d.cols.contains v then
        { d with rows := d.rows.filter (fun r => !(toDrop.map Cell.str).contains (getCell r v)) }
      else d)
    df

/-- The five variant-relationship tags recoded to 1. -/
def tagStrings : List String := ["extra", "mut", "shared", "revert", "subset"]

/-- `.replace(np.nan, 0)` at cell level. -/
def replaceNanCell (v : Cell) : Cell :=
  match v with
  | .nan => Cell.num 0
  | v => v

/-- `.replace(["extra","mut","shared","revert","subset"], 1)` at cell level. -/
def replaceTagCell (v : Cell) : Cell :=
  match v with
  | .str s => if tagStrings.contains s then Cell.num 1 else Cell.str s
  | v => v

/-- The composite per-cell effect of the two whole-frame `replace` calls. -/
def recodeCell (v : Cell) : Cell := replaceTagCell (replaceNanCell v)

/-- Apply a cell transformation to every cell of every column. -/
def mapCellsDF (f : Cell → Cell) (df : DF) : DF :=
  { df with rows := df.rows.map (fun r => r.map (fun p => (p.1, f p.2))) }

/-- `df.replace(np.nan, 0)`: applied to the whole frame, all columns. -/
def replaceNanDF (df : DF) : DF := mapCellsDF replaceNanCell df

/-- `df.replace([tags], 1)`: applied to the whole frame, all columns. -/
def replaceTagsDF (df : DF) : DF := mapCellsDF replaceTagCell df

/-- Numeric value of a cell as used when summing indicator columns. -/
def cellRat : Cell → Rat
  | .num q => q
  | _ => 0

/-- Row sum over the variant columns `vcs`. -/
def rowVarSum (vcs : List String) (r : Row) : Rat :=
  (vcs.map (fun c => cellRat (getCell r c))).sum

/-- Drop rows whose indicator sum over the variant columns is 0 or equals the
number of variant columns (uninformative rows). -/
def dropUninformativeDF (vcs : List String) (df : DF) : DF :=
  { df with
    rows := df.rows.filter
      (fun r => !decide (rowVarSum vcs r = 0 ∨ rowVarSum vcs r = (vcs.length : Rat))) }

/-- Insert the `undetermined` cell, value 0, right before the last position
(the source inserts at column position `size - 1`). -/
def insertUndetRow (r : Row) : Row :=
  r.insertIdx (r.length - 1) ("undetermined", Cell.num 0)

/-- `df.insert(df.columns.size - 1, "undetermined", 0)`; pandas raises
`ValueError` when the column already exists. -/
def insertUndetDF (df : DF) : Except Err DF :=
  if df.cols.contains "undetermined" then .error .valueError
  else
    .ok { cols := df.cols.insertIdx (df.cols.length - 1) "undetermined",
          rows := df.rows.map insertUndetRow }

/-- `"-" + mutations` at cell level: string concatenation (pandas would raise
on non-string cells; they are left untouched here). -/
def dashPrefixCell : Cell → Cell
  | .str s => Cell.str ("-" ++ s)
  | v => v

/-- `1 - cell`: numeric subtraction (pandas would raise on non-numeric cells;
they are left untouched here). -/
def oneMinusCell : Cell → Cell
  | .num q => Cell.num (1 - q)
  | v => v

/-- Transform the cell of one named column of a row. -/
def mapColCells (c : String) (f : Cell → Cell) (r : Row) : Row :=
  r.map (fun p => if p.1 = c then (p.1, f p.2) else p)

/-- Transform the cells of a set of named columns of a row. -/
def mapColsCells (cs : List String) (f : Cell → Cell) (r : Row) : Row :=
  r.map (fun p => if cs.contains p.1 then (p.1, f p.2) else p)

/-- Overwrite the cell of one named column of a row. -/
def setColCells (c : String) (v : Cell) (r : Row) : Row :=
  r.map (fun p => if p.1 = c then (p.1, v) else p)

/-- `DataPreprocesser.make_complement` at row level: prefix the mutation
signature with `"-"`, take `1 - frac`, invert the variant indicator columns,
and set `undetermined` to 1, in the order of the source's column assignments. -/
def complementRow (vcs : List String) (r : Row) : Row :=
  setColCells "undetermined" (Cell.num 1)
    (mapColsCells vcs oneMinusCell
      (mapColCells "frac" oneMinusCell
        (mapColCells "mutations" dashPrefixCell r)))

/-- The net per-cell effect of `make_complement` on the cell of column `c`. -/
def complementCell (vcs : List String) (c : String) (v : Cell) : Cell :=
  let v1 := if c = "mutations" then dashPrefixCell v else v
  let v2 := if c = "frac" then oneMinusCell v1 else v1
  let v3 := if vcs.contains c then oneMinusCell v2 else v2
  if c = "undetermined" then Cell.num 1 else v3

/-- `DataPreprocesser.make_complement`: the mirrored frame (pandas raises
`KeyError` when the frame has no `mutations` column to read). -/
def make_complement (vcs : List String) (df : DF) : Except Err DF :=
  if df.cols.contains "mutations" then
    .ok { df with rows := df.rows.map (complementRow vcs) }
  else .error .keyError

/-- Arguments of `DataPreprocesser.general_preprocess`. -/
structure PreprocConfig where
  variants_list : List String
  variants_pangolin : List (String × String)
  variants_not_reported : List String
  to_drop : List String
  start_date : Option Rat := none
  end_date : Option Rat := none
  no_date : Bool := false
  remove_deletions : Bool := true
  make_complement : Bool := true

/-- `general_preprocess` from the column rename up to and including the
whole-frame tag recode: rename (with the duplicate-canonical-name assertion),
drop unreported variant columns, drop rows without `frac` (and `date` unless
date-less), derive the mutation signature, parse dates, filter the date range,
remove deletions, apply the `to_drop` loop, and recode tags over the whole
frame. -/
def preprocessRecode (cfg : PreprocConfig) (df0 : DF) : Except Err DF :=
  if ¬(cfg.variants_pangolin.map Prod.snd).Nodup then .error .configError
  else
    match dropnaDF (if cfg.no_date then ["frac"] else ["frac", "date"])
        (dropColsDF cfg.variants_not_reported (renameDF cfg.variants_pangolin df0)) with
    | .error e => .error e
    | .ok df3 =>
      match toDatetimeDF (signatureDF df3) with
      | .error e => .error e
      | .ok df5 =>
        .ok (replaceTagsDF (replaceNanDF
          (dropTaggedDF cfg.variants_list cfg.to_drop
            (removeDeletionsDF cfg.remove_deletions
              (dateRangeFilter cfg.no_date cfg.start_date cfg.end_date df5)))))

/-- `variants_columns = list(set(variants_list) & set(df.columns))`. -/
def variants_columns (vl : List String) (df : DF) : List String :=
  vl.filter (fun v => df.cols.contains v)

/-- `general_preprocess` up to and including the insertion of the
`undetermined` column, before the optional complement concatenation.  Returns
the surviving variant columns together with the frame of surviving rows. -/
def preprocessCore (cfg : PreprocConfig) (df0 : DF) : Except Err (List String × DF) :=
  match preprocessRecode cfg df0 with
  | .error e => .error e
  | .ok df9 =>
    match insertUndetDF (dropUninformativeDF (variants_columns cfg.variants_list df9) df9) with
    | .error e => .error e
    | .ok df11 => .ok (variants_columns cfg.variants_list df9, df11)

/-- `DataPreprocesser.general_preprocess`: the core steps, then, when
`make_complement` is set, concatenation of the complement frame. -/
def general_preprocess (cfg : PreprocConfig) (df0 : DF) : Except Err DF :=
  match preprocessCore cfg df0 with
  | .error e => .error e
  | .ok (vcs, base) =>
    if cfg.make_complement then
      match make_complement vcs base with
      | .error e => .error e
      | .ok comp => .ok { base with rows := base.rows ++ comp.rows }
    else .ok base

/-! ### Lemmas about the complement construction -/

theorem ite_pair {α β : Type} (P : Prop) [Decidable P] (a : α) (x y : β) :
    (if P then (a, x) else (a, y)) = (a, if P then x else y) := by
  split <;> rfl

theorem complementRow_eq_map (vcs : List String) (r : Row) :
    complementRow vcs r = r.map (fun p => (p.1, complementCell vcs p.1 p.2)) := by
  unfold complementRow setColCells mapColsCells mapColCells
  simp only [List.map_map]
  congr 1
  funext p
  obtain ⟨c, v⟩ := p
  by_cases h1 : c = "mutations" <;> by_cases h2 : c = "frac" <;>
    by_cases h4 : c = "undetermined" <;>
      simp [Function.comp, complementCell, ite_pair, h1, h2, h4]

theorem complementCell_undetermined (vcs : List String) (v : Cell) :
    complementCell vcs "undetermined" v = Cell.num 1 := by
  simp [complementCell]

theorem complementCell_frac (vcs : List String) (q : Rat) (h : "frac" ∉ vcs) :
    complementCell vcs "frac" (Cell.num q) = Cell.num (1 - q) := by
  simp [complementCell, oneMinusCell, h]

theorem complementCell_mutations (vcs : List String) (s : String) (h : "mutations" ∉ vcs) :
    complementCell vcs "mutations" (Cell.str s) = Cell.str ("-" ++ s) := by
  simp [complementCell, dashPrefixCell, oneMinusCell, h]

theorem complementCell_variant (vcs : List String) (c : String) (b : Rat)
    (hv : c ∈ vcs) (h1 : c ≠ "mutations") (h2 : c ≠ "frac") (h3 : c ≠ "undetermined") :
    complementCell vcs c (Cell.num b) = Cell.num (1 - b) := by
  simp [complementCell, oneMinusCell, hv, h1, h2, h3]

theorem mem_insertUndetRow (r : Row) : ("undetermined", Cell.num 0) ∈ insertUndetRow r := by
  unfold insertUndetRow
  rw [List.mem_insertIdx (Nat.sub_le _ _)]
  exact Or.inl rfl

theorem insertUndetDF_ok {df base : DF} (h : insertUndetDF df = .ok base) :
    df.cols.contains "undetermined" = false ∧ base.rows = df.rows.map insertUndetRow := by
  unfold insertUndetDF at h
  split at h
  · exact absurd h (by simp)
  · refine ⟨by simpa using ‹¬df.cols.contains "undetermined" = true›, ?_⟩
    cases h
    rfl

theorem preprocessCore_ok {cfg : PreprocConfig} {df0 : DF} {vcs : List String} {base : DF}
    (h : preprocessCore cfg df0 = .ok (vcs, base)) :
    ∃ df10 : DF, vcs = cfg.variants_list.filter (fun v => df10.cols.contains v) ∧
      insertUndetDF df10 = .ok base := by
  unfold preprocessCore at h
  cases hm : preprocessRecode cfg df0 with
  | error e => rw [hm] at h; exact absurd h (by simp)
  | ok df9 =>
    rw [hm] at h
    dsimp only at h
    cases hins : insertUndetDF
        (dropUninformativeDF (variants_columns cfg.variants_list df9) df9) with
    | error e => rw [hins] at h; exact absurd h (by simp)
    | ok df11 =>
      rw [hins] at h
      injection h with h
      injection h with h1 h2
      refine ⟨dropUninformativeDF (variants_columns cfg.variants_list df9) df9, ?_, ?_⟩
      · rw [← h1]; rfl
      · rw [h2] at hins; exact hins

theorem preprocessCore_mk_irrel (cfg : PreprocConfig) (b : Bool) (df0 : DF) :
    preprocessCore { cfg with make_complement := b } df0 = preprocessCore cfg df0 := rfl

theorem make_complement_ok {vcs : List String} {df comp : DF}
    (h : make_complement vcs df = .ok comp) :
    comp.rows = df.rows.map (complementRow vcs) := by
  unfold make_complement at h
  split at h
  · cases h; rfl
  · exact absurd h (by simp)

/-- C1: after `general_preprocess` with complement generation enabled, the
output rows are exactly the surviving original rows followed by one complement
per original, in matching order, so each survivor has exactly one complement
and the row count doubles; the complement negates the mutation signature,
takes `1 - frac`, inverts the indicator bit of every variant column, and
carries `undetermined = 1`, while every original carries `undetermined = 0`. -/
theorem c1_complement_augmentation (cfg : PreprocConfig) (df0 out : DF)
    (hmk : cfg.make_complement = true)
    (h : general_preprocess cfg df0 = .ok out) :
    ∃ vcs : List String, ∃ base : DF,
      general_preprocess { cfg with make_complement := false } df0 = .ok base ∧
      out.rows = base.rows ++ base.rows.map (complementRow vcs) ∧
      out.rows.length = 2 * base.rows.length ∧
      "undetermined" ∉ vcs ∧
      (∀ r ∈ base.rows, ("undetermined", Cell.num 0) ∈ r) ∧
      (∀ r : Row, complementRow vcs r = r.map (fun p => (p.1, complementCell vcs p.1 p.2))) ∧
      (∀ r : Row, ("undetermined", Cell.num 0) ∈ r →
        ("undetermined", Cell.num 1) ∈ complementRow vcs r) ∧
      (∀ q : Rat, "frac" ∉ vcs → complementCell vcs "frac" (Cell.num q) = Cell.num (1 - q)) ∧
      (∀ s : String, "mutations" ∉ vcs →
        complementCell vcs "mutations" (Cell.str s) = Cell.str ("-" ++ s)) ∧
      (∀ c : String, ∀ b : Rat, c ∈ vcs → c ≠ "mutations" → c ≠ "frac" →
        complementCell vcs c (Cell.num b) = Cell.num (1 - b)) ∧
      (∀ v : Cell, complementCell vcs "undetermined" v = Cell.num 1) := by
  cases hp : preprocessCore cfg df0 with
  | error e =>
    rw [general_preprocess, hp] at h
    exact absurd h (by simp)
  | ok p =>
    obtain ⟨vcs, base⟩ := p
    rw [general_preprocess, hp, hmk] at h
    simp only [if_true] at h
    cases hmc : make_complement vcs base with
    | error e =>
      rw [hmc] at h
      exact absurd h (by simp)
    | ok comp =>
      rw [hmc] at h
      injection h with h
      obtain ⟨df10, hvcs, hins⟩ := preprocessCore_ok hp
      obtain ⟨hguard, hbrows⟩ := insertUndetDF_ok hins
      have hnu : "undetermined" ∉ vcs := by
        intro hmem
        rw [hvcs, List.mem_filter] at hmem
        rw [hmem.2] at hguard
        exact absurd hguard (by simp)
      refine ⟨vcs, base, ?_, ?_, ?_, hnu, ?_, complementRow_eq_map vcs, ?_,
        fun q hq => complementCell_frac vcs q hq,
        fun s hs => complementCell_mutations vcs s hs,
        fun c b hv h1 h2 => complementCell_variant vcs c b hv h1 h2
          (fun hc => hnu (hc ▸ hv)),
        fun v => complementCell_undetermined vcs v⟩
      · rw [general_preprocess, preprocessCore_mk_irrel, hp]
        simp
      · rw [← h, make_complement_ok hmc]
      · rw [← h, make_complement_ok hmc]
        simp only [List.length_append, List.length_map]
        omega
      · intro r hr
        rw [hbrows, List.mem_map] at hr
        obtain ⟨r0, _, hr0⟩ := hr
        rw [← hr0]
        exact mem_insertUndetRow r0
      · intro r hr
        rw [complementRow_eq_map]
        exact List.mem_map.mpr ⟨("undetermined", Cell.num 0), hr,
          by simp [complementCell_undetermined]⟩

theorem preprocessRecode_ok {cfg : PreprocConfig} {df0 df9 : DF}
    (h : preprocessRecode cfg df0 = .ok df9) :
    ∃ df8 : DF, df9 = replaceTagsDF (replaceNanDF df8) := by
  unfold preprocessRecode at h
  split at h
  · exact absurd h (by simp)
  · cases hd : dropnaDF (if cfg.no_date then ["frac"] else ["frac", "date"])
        (dropColsDF cfg.variants_not_reported (renameDF cfg.variants_pangolin df0)) with
    | error e => rw [hd] at h; exact absurd h (by simp)
    | ok df3 =>
      rw [hd] at h
      dsimp only at h
      cases ht : toDatetimeDF (signatureDF df3) with
      | error e => rw [ht] at h; exact absurd h (by simp)
      | ok df5 =>
        rw [ht] at h
        dsimp only at h
        injection h with h
        exact ⟨_, h.symm⟩

/-- C9: in `general_preprocess`, the tag-recoding pass (the two whole-frame
`replace` calls) is applied to every column of the intermediate table, not
only variant columns: every `NaN` cell of any column becomes 0, every cell
holding one of the five tag strings becomes 1 (including cells of non-variant
columns such as `location` or `sample`), and all other cells are unchanged. -/
theorem c9_recode_all_columns :
    (∀ cfg : PreprocConfig, ∀ df0 df9 : DF, preprocessRecode cfg df0 = .ok df9 →
      ∃ df8 : DF, df9 = replaceTagsDF (replaceNanDF df8)) ∧
    (∀ df : DF, replaceTagsDF (replaceNanDF df) =
      { cols := df.cols,
        rows := df.rows.map (fun r => r.map (fun p => (p.1, recodeCell p.2))) }) ∧
    recodeCell Cell.nan = Cell.num 0 ∧
    (∀ s : String, s ∈ tagStrings → recodeCell (Cell.str s) = Cell.num 1) ∧
    (∀ q : Rat, recodeCell (Cell.num q) = Cell.num q) ∧
    (∀ s : String, s ∉ tagStrings → recodeCell (Cell.str s) = Cell.str s) := by
  refine ⟨fun cfg df0 df9 h => preprocessRecode_ok h, ?_, rfl, ?_, fun q => rfl, ?_⟩
  · intro df
    simp [replaceTagsDF, replaceNanDF, mapCellsDF, recodeCell, List.map_map, Function.comp]
  · intro s hs
    simp [recodeCell, replaceNanCell, replaceTagCell, List.elem_iff, hs]
  · intro s hs
    simp [recodeCell, replaceNanCell, replaceTagCell, List.elem_iff, hs]

/-! ### Concrete witness data for the preprocessing claims -/

/-- A concrete tally frame: one observation with an `Alpha` tag `mut`, an
empty `Beta` cell, `frac = 1`, and a mutation signature. -/
def dfW : DF :=
  { cols := ["mutations", "frac", "date", "Alpha", "Beta"],
    rows := [[("mutations", Cell.str "123A"), ("frac", Cell.num 1), ("date", Cell.num 100),
              ("Alpha", Cell.str "mut"), ("Beta", Cell.nan)]] }

/-- A concrete preprocessing configuration for two variants. -/
def cfgW : PreprocConfig :=
  { variants_list := ["Alpha", "Beta"], variants_pangolin := [], variants_not_reported := [],
    to_drop := [] }

/-- The result of `general_preprocess cfgW dfW`: the surviving original row
followed by its complement. -/
def outW : DF :=
  { cols := ["mutations", "frac", "date", "Alpha", "undetermined", "Beta"],
    rows := [[("mutations", Cell.str "123A"), ("frac", Cell.num 1), ("date", Cell.num 100),
              ("Alpha", Cell.num 1), ("undetermined", Cell.num 0), ("Beta", Cell.num 0)],
             [("mutations", Cell.str "-123A"), ("frac", Cell.num 0), ("date", Cell.num 100),
              ("Alpha", Cell.num 0), ("undetermined", Cell.num 1), ("Beta", Cell.num 1)]] }

/-- Witness for C1: the complement-augmentation theorem instantiated on the
concrete frame `dfW`. -/
theorem c1_complement_augmentation_witness :
    ∃ vcs : List String, ∃ base : DF,
      general_preprocess { cfgW with make_complement := false } dfW = .ok base ∧
      outW.rows = base.rows ++ base.rows.map (complementRow vcs) ∧
      outW.rows.length = 2 * base.rows.length ∧
      "undetermined" ∉ vcs ∧
      (∀ r ∈ base.rows, ("undetermined", Cell.num 0) ∈ r) ∧
      (∀ r : Row, complementRow vcs r = r.map (fun p => (p.1, complementCell vcs p.1 p.2))) ∧
      (∀ r : Row, ("undetermined", Cell.num 0) ∈ r →
        ("undetermined", Cell.num 1) ∈ complementRow vcs r) ∧
      (∀ q : Rat, "frac" ∉ vcs → complementCell vcs "frac" (Cell.num q) = Cell.num (1 - q)) ∧
      (∀ s : String, "mutations" ∉ vcs →
        complementCell vcs "mutations" (Cell.str s) = Cell.str ("-" ++ s)) ∧
      (∀ c : String, ∀ b : Rat, c ∈ vcs → c ≠ "mutations" → c ≠ "frac" →
        complementCell vcs c (Cell.num b) = Cell.num (1 - b)) ∧
      (∀ v : Cell, complementCell vcs "undetermined" v = Cell.num 1) :=
  c1_complement_augmentation cfgW dfW outW rfl (by with_unfolding_all rfl)

/-- Witness for C9: the recode theorem instantiated on a concrete frame with a
`location` column holding the tag string `mut` and a `sample` column holding a
missing value — both are recoded even though neither is a variant column. -/
theorem c9_recode_all_columns_witness :
    replaceTagsDF (replaceNanDF
      { cols := ["location", "sample"],
        rows := [[("location", Cell.str "mut"), ("sample", Cell.nan)]] }) =
      { cols := ["location", "sample"],
        rows := [[("location", recodeCell (Cell.str "mut")),
                  ("sample", recodeCell Cell.nan)]] } ∧
    recodeCell (Cell.str "mut") = Cell.num 1 ∧
    recodeCell Cell.nan = Cell.num 0 ∧
    recodeCell (Cell.str "location") = Cell.str "location" :=
  ⟨c9_recode_all_columns.2.1 _, c9_recode_all_columns.2.2.2.1 "mut" (by decide),
    c9_recode_all_columns.2.2.1, c9_recode_all_columns.2.2.2.2.2 "location" (by decide)⟩

/-!
## The CLI driver (`lollipop/cli/deconvolute.py`)

Dates are modelled as rationals (day ordinals); they are totally ordered
exactly as ISO date strings and pandas timestamps are, which is all the
driver logic depends on.
-/

/-- The confidence-interval estimators the `confints` table can select:
`"wald"` maps to `WaldConfint`; `"null"`, a missing key, and any unknown name
fall back to `NullConfint` (a `dict.get` with default). -/
inductive ConfintKind where
  | null : ConfintKind
  | wald : ConfintKind
deriving DecidableEq, Repr

/-- `confints.get(deconv.get("confint"), ll.NullConfint)`. -/
def confintOf : Option String → ConfintKind
  | some "wald" => .wald
  | _ => .null

/-- `have_confint = confint != ll.NullConfint`. -/
def have_confint (k : ConfintKind) : Bool := k != ConfintKind.null

/-! ### Location handling (lines 166-184) -/

/-- What the missing-location-column handling decides to do with the frame. -/
inductive LocOutcome where
  | keep : LocOutcome
  | useCodes : LocOutcome
  | stampSingle : String → LocOutcome
deriving DecidableEq, Repr

/-- The missing-location-column handling of `deconvolute`.  It mirrors the
Python `if/elif` chain exactly: in particular `len(locations_list)` is
evaluated before the `locations_list is None` test, so when no list was
supplied the call raises `TypeError` and the graceful `no_loc`-fallback
branch below it is unreachable dead code. -/
def handleMissingLocation (noLoc hasLocationCol hasLocationCodeCol : Bool)
    (locationsList : Option (List String)) : Except Err LocOutcome :=
  if !noLoc && !hasLocationCol then
    if hasLocationCodeCol then .ok .useCodes
    else
      match locationsList with
      | none => .error .typeError
      | some l =>
        if l.length = 1 then .ok (.stampSingle (l.headD ""))
        else .error .dataError
  else .ok .keep

/-! ### Variant schedule windows (lines 284-295) -/

/-- The per-window variant schedule `var_dates["var_dates"]`: list of
(window-start key, newly-active variant list) in file order. -/
abbrev VarDates := List (Rat × List String)

/-- `d = list(var_dates["var_dates"].keys()); zip(d, d[1:] + [None])`. -/
def date_intervals (d : List Rat) : List (Rat × Option Rat) :=
  d.zip ((d.drop 1).map some ++ [none])

/-- The out-of-order-dates assertion loop over the interval pairs, skipped in
`no_date` mode.  When a pair is out of order the source evaluates the assert
message, an f-string referencing the undefined name `variants_date` (the
parameter is spelled `variants_dates`), so the run aborts with a `NameError`
instead of the intended `AssertionError`. -/
def checkIntervalOrder (noDate : Bool) (ivs : List (Rat × Option Rat)) : Except Err Unit :=
  if noDate then .ok ()
  else if ivs.all (fun p =>
      match p.2 with
      | some maxdate => decide (p.1 < maxdate)
      | none => true) then .ok ()
  else .error .nameError

theorem intervalAll_iff_chain (d : List Rat) :
    ((date_intervals d).all fun p =>
      match p.2 with
      | some maxdate => decide (p.1 < maxdate)
      | none => true) = true ↔ List.Chain' (· < ·) d := by
  induction d with
  | nil => simp [date_intervals]
  | cons a t ih =>
    cases t with
    | nil => simp [date_intervals]
    | cons b t2 =>
      have h1 : date_intervals (a :: b :: t2) = (a, some b) :: date_intervals (b :: t2) := rfl
      rw [h1]
      simp only [List.all_cons, Bool.and_eq_true, decide_eq_true_eq, List.chain'_cons]
      exact and_congr Iff.rfl ih

theorem checkIntervalOrder_ok_iff (d : List Rat) :
    checkIntervalOrder false (date_intervals d) = .ok () ↔ List.Chain' (· < ·) d := by
  rw [← intervalAll_iff_chain d]
  unfold checkIntervalOrder
  by_cases hall : ((date_intervals d).all fun p =>
      match p.2 with
      | some maxdate => decide (p.1 < maxdate)
      | none => true) = true
  · simp [hall]
  · simp [hall]

/-- C3 (code bug): a schedule whose adjacent keys are non-ascending makes the
run fail, but with a `NameError` (the assert message references the undefined
name `variants_date`), not with the spec's ConfigError/`AssertionError`; the
window pairing itself and the acceptance of ascending schedules behave as
claimed. -/
theorem c3_nonascending_schedule_fails_with_nameError :
    checkIntervalOrder false (date_intervals [1, 0]) = .error .nameError ∧
    (Except.error Err.nameError : Except Err Unit) ≠ .error .configError ∧
    checkIntervalOrder false (date_intervals [0, 1]) = .ok () ∧
    date_intervals [0, 1] = [(0, some 1), (1, none)] ∧
    checkIntervalOrder true (date_intervals [1, 0]) = .ok () := by
  refine ⟨by with_unfolding_all rfl, by simp, by with_unfolding_all rfl,
    by with_unfolding_all rfl, rfl⟩

/-- C7 (corrected): with no location column and `no_loc` unset, a
`location_code` column is used as display name; an explicit one-element
location list is stamped; a list of any other length exits with the
data error; but a missing list raises `TypeError` from `len(None)` — the
claimed "fail with DataError in every other case" does not hold there, and
the dead fallback branch below never runs. -/
theorem c7_location_fallback_amended :
    (∀ ll : Option (List String), handleMissingLocation false false true ll = .ok .useCodes) ∧
    (∀ x : String, handleMissingLocation false false false (some [x]) = .ok (.stampSingle x)) ∧
    (∀ l : List String, l.length ≠ 1 →
      handleMissingLocation false false false (some l) = .error .dataError) ∧
    handleMissingLocation false false false none = .error .typeError ∧
    (∀ hasCode : Bool, ∀ ll : Option (List String),
      handleMissingLocation true false hasCode ll = .ok .keep) ∧
    (∀ noLoc hasCode : Bool, ∀ ll : Option (List String),
      handleMissingLocation noLoc true hasCode ll = .ok .keep) := by
  refine ⟨fun ll => rfl, fun x => rfl, ?_, rfl, fun hasCode ll => rfl, ?_⟩
  · intro l hl
    unfold handleMissingLocation
    simp [hl]
  · intro noLoc hasCode ll
    unfold handleMissingLocation
    cases noLoc <;> rfl

/-- Counterexample to C7 as stated: when no location column, no
`location_code` column, and no allowed-locations list are given, the run dies
with a `TypeError` (from `len(None)`), not with the claimed DataError. -/
theorem c7_no_list_is_typeError_not_dataError :
    handleMissingLocation false false false none = .error .typeError ∧
    (Except.error Err.typeError : Except Err LocOutcome) ≠ .error .dataError :=
  ⟨rfl, by simp⟩

/-- Witness for C7: the amended characterization applied at concrete inputs. -/
theorem c7_location_fallback_amended_witness :
    handleMissingLocation false false true none = .ok .useCodes ∧
    handleMissingLocation false false false (some ["Zurich"]) = .ok (.stampSingle "Zurich") ∧
    handleMissingLocation false false false (some []) = .error .dataError ∧
    handleMissingLocation false false false none = .error .typeError :=
  ⟨c7_location_fallback_amended.1 none,
    c7_location_fallback_amended.2.1 "Zurich",
    c7_location_fallback_amended.2.2.1 [] (by decide),
    c7_location_fallback_amended.2.2.2.1⟩

/-! ### The location × replicate × window loop (lines 352-442) -/

/-- The window date filter of the loop body:
`date.between(mindate, maxdate, inclusive="left")` for bounded windows,
`date >= mindate` for the final unbounded one; no filtering in `no_date`
mode. -/
def windowFilter (noDate : Bool) (iv : Rat × Option Rat) (rows : List Row) : List Row :=
  if noDate then rows
  else
    match iv.2 with
    | some maxdate => rows.filter (fun r =>
        cellGe (getCell r "date") (Cell.num iv.1) && cellLt (getCell r "date") (Cell.num maxdate))
    | none => rows.filter (fun r => cellGe (getCell r "date") (Cell.num iv.1))

/-- `variants_columns = list(set(var_dates["var_dates"][mindate]) &
set(temp_df2.columns))`. -/
def activeVariantCols (varDates : VarDates) (mindate : Rat) (cols : List String) : List String :=
  ((varDates.lookup mindate).getD []).filter (fun v => cols.contains v)

/-- The uninformative-row filter of the loop body: keep rows whose indicator
sum over the window's variant columns is neither 0 nor the column count. -/
def informativeRows (vcols : List String) (rows : List Row) : List Row :=
  rows.filter (fun r =>
    !decide (rowVarSum vcols r = 0 ∨ rowVarSum vcols r = (vcols.length : Rat)))

/-- One (location, window, replicate) slice of the driver loop, from the
window date filter to the engine call: the engine result (none when the slice
hits a `continue`) paired with the number of regression-engine calls made.
The engine itself is external (out of the spec's scope) and is passed in as a
function of the informative rows and the selected columns
`var_dates["var_dates"][mindate] + ["undetermined"]`. -/
def processSlice {α : Type} (engine : List Row → List String → α)
    (noDate : Bool) (varDates : VarDates) (iv : Rat × Option Rat)
    (cols : List String) (rowsb : List Row) : Option α × Nat :=
  let rows2 := windowFilter noDate iv rowsb
  if rows2.isEmpty then (none, 0)
  else
    let rows3 := informativeRows (activeVariantCols varDates iv.1 cols) rows2
    if rows3.isEmpty then (none, 0)
    else (some (engine rows3 (((varDates.lookup iv.1).getD []) ++ ["undetermined"])), 1)

/-- C4: a slice whose window-filtered row set is empty, or all of whose rows
become uninformative after restricting to the window's active variant columns,
is skipped silently: no result is emitted, no error is raised, and the
regression engine is not called for it. -/
theorem c4_degenerate_slice_skipped {α : Type} (engine : List Row → List String → α)
    (noDate : Bool) (varDates : VarDates) (iv : Rat × Option Rat)
    (cols : List String) (rowsb : List Row)
    (h : windowFilter noDate iv rowsb = [] ∨
      informativeRows (activeVariantCols varDates iv.1 cols) (windowFilter noDate iv rowsb) = []) :
    processSlice engine noDate varDates iv cols rowsb = (none, 0) := by
  unfold processSlice
  rcases h with h | h
  · rw [if_pos (by simp [h])]
  · by_cases h2 : (windowFilter noDate iv rowsb).isEmpty = true
    · rw [if_pos h2]
    · rw [if_neg h2, if_pos (by simp [h])]

/-- Witness for C4: a slice whose only row is active for every one of the
window's variant columns (indicator sum = column count) is skipped with no
engine call. -/
theorem c4_degenerate_slice_skipped_witness :
    processSlice (fun _ _ => (0 : Nat)) false [((0 : Rat), ["Alpha"])] ((0 : Rat), none)
      ["date", "frac", "Alpha", "undetermined"]
      [[("date", Cell.num 5), ("frac", Cell.num 1), ("Alpha", Cell.num 1)]] = (none, 0) :=
  c4_degenerate_slice_skipped _ _ _ _ _ _ (Or.inr (by with_unfolding_all rfl))

/-! ### Resampling and the full deconvolution run (lines 311-442) -/

/-- State of numpy's process-global generator, seeded once per run by
`np.random.seed(seed)` and advanced by each consuming call. -/
abbrev Rng := Nat

/-- `np.random.seed(seed)`. -/
def seedRng (seed : Nat) : Rng := seed

/-- One advance of the global generator state. -/
def rngStep (rng : Rng) : Rng := rng + 1

/-- The distinct mutation signatures of a row set
(`loc_df.mutations.unique()`). -/
def signatureGroups (rows : List Row) : List Cell :=
  (rows.map (fun r => getCell r "mutations")).dedup

/-- Modelled from the spec: `ll.resample_mutations` is code of this repository
that is not under `src/` — only its caller is.  Per the spec (§4.4) it draws
mutation-signature groups with replacement using numpy's global generator,
keeping the full row content of each drawn group intact.  The draw itself is
modelled as an arbitrary deterministic function of the generator state (group
`(rng + k) % n` on the k-th draw); what the claims depend on is exactly that
the draw is a deterministic function of the state and the input rows. -/
def resampleDraw (rng : Rng) (rows : List Row) : List Row :=
  let gs := signatureGroups rows
  (List.range gs.length).flatMap (fun k =>
    rows.filter (fun r => getCell r "mutations" == gs.getD ((rng + k) % gs.length) Cell.nan))

/-- Modelled from the spec: `resample_mutations` as called by the driver,
returning the resampled rows and the advanced generator state (the call
consumes the global generator). -/
def resample_mutations (rng : Rng) (rows : List Row) : List Row × Rng :=
  (resampleDraw rng rows, rngStep rng)

/-- The inner window loop of one replicate: run every date interval's slice
in order, collecting the emitted results and the number of engine calls. -/
def runWindows {α : Type} (engine : List Row → List String → α) (noDate : Bool)
    (varDates : VarDates) (ivs : List (Rat × Option Rat)) (cols : List String)
    (rowsb : List Row) : List α × Nat :=
  ivs.foldr
    (fun iv acc =>
      match processSlice engine noDate varDates iv cols rowsb with
      | (none, n) => (acc.1, n + acc.2)
      | (some a, n) => (a :: acc.1, n + acc.2))
    ([], 0)

/-- The replicate loop in bootstrap mode (`for b in trange(bootstrap)`): each
replicate resamples from the location's rows, consuming the generator, then
runs the window loop on the resampled rows. -/
def runReplicatesAux {α : Type} (engine : List Row → List String → α) (noDate : Bool)
    (varDates : VarDates) (ivs : List (Rat × Option Rat)) (cols : List String)
    (locRows : List Row) : Nat → Rng → List α × Nat × Rng
  | 0, rng => ([], 0, rng)
  | b + 1, rng =>
    let drawn := resample_mutations rng locRows
    let wres := runWindows engine noDate varDates ivs cols drawn.1
    let rest := runReplicatesAux engine noDate varDates ivs cols locRows b drawn.2
    (wres.1 ++ rest.1, wres.2 + rest.2.1, rest.2.2)

/-- One location of the outer loop: in bootstrap mode run `bootstrap`
resampled replicates, otherwise one full-weight pass over the location's rows
with no resampling (and no generator consumption). -/
def runLocation {α : Type} (engine : List Row → List String → α) (bootstrap : Nat)
    (noDate : Bool) (varDates : VarDates) (ivs : List (Rat × Option Rat))
    (cols : List String) (locRows : List Row) (rng : Rng) : List α × Nat × Rng :=
  if bootstrap > 1 then
    runReplicatesAux engine noDate varDates ivs cols locRows bootstrap rng
  else
    let wres := runWindows engine noDate varDates ivs cols locRows
    (wres.1, wres.2, rng)

/-- `loc_df`: the rows of the current location (all rows in `no_loc` mode). -/
def locationRows (noLoc : Bool) (rows : List Row) (loc : String) : List Row :=
  if noLoc then rows else rows.filter (fun r => getCell r "location" == Cell.str loc)

/-- The location loop, threading the generator state through every
location. -/
def runLocations {α : Type} (engine : List Row → List String → α) (bootstrap : Nat)
    (noLoc noDate : Bool) (varDates : VarDates) (ivs : List (Rat × Option Rat))
    (cols : List String) (rows : List Row) : List String → Rng → List α × Nat × Rng
  | [], rng => ([], 0, rng)
  | loc :: rest, rng =>
    let lres := runLocation engine bootstrap noDate varDates ivs cols
      (locationRows noLoc rows loc) rng
    let rres := runLocations engine bootstrap noLoc noDate varDates ivs cols rows rest lres.2.2
    (lres.1 ++ rres.1, lres.2.1 + rres.2.1, rres.2.2)

/-- Run configuration of the deconvolution phase. -/
structure RunConfig where
  bootstrap : Nat
  confint : ConfintKind
  no_date : Bool
  no_loc : Bool
deriving DecidableEq, Repr

/-- The deconvolution phase of the CLI `deconvolute` command, in source
order: build and order-check the date intervals, seed the global generator
once (`np.random.seed(seed)`), check the bootstrap/confint
mutual-exclusion assert, then run the location × replicate × window loop.
Returns the outcome and the number of regression-engine calls made. -/
def deconvolveAll {α : Type} (engine : List Row → List String → α) (cfg : RunConfig)
    (varDates : VarDates) (locations : List String) (rows : List Row)
    (cols : List String) (seed : Nat) : Except Err (List α) × Nat :=
  let ivs := date_intervals (varDates.map Prod.fst)
  match checkIntervalOrder cfg.no_date ivs with
  | .error e => (.error e, 0)
  | .ok _ =>
    let rng := seedRng seed
    if have_confint cfg.confint && decide (cfg.bootstrap > 1) then (.error .configError, 0)
    else
      let res := runLocations engine cfg.bootstrap cfg.no_loc cfg.no_date varDates ivs cols
        rows locations rng
      (.ok res.1, res.2.1)

/-- C2: a run configured with both a bootstrap count above 1 and a non-null
confidence estimator fails with the configuration error before any
deconvolution-engine call (engine call count 0); a configuration with at most
one of the two never triggers this failure. -/
theorem c2_bootstrap_confint_exclusive {α : Type} (engine : List Row → List String → α)
    (cfg : RunConfig) (varDates : VarDates) (locations : List String)
    (rows : List Row) (cols : List String) (seed : Nat)
    (hiv : checkIntervalOrder cfg.no_date (date_intervals (varDates.map Prod.fst)) = .ok ()) :
    ((have_confint cfg.confint = true ∧ cfg.bootstrap > 1) ↔
      deconvolveAll engine cfg varDates locations rows cols seed = (.error .configError, 0)) ∧
    (¬(have_confint cfg.confint = true ∧ cfg.bootstrap > 1) →
      ∃ res : List α, ∃ n : Nat,
        deconvolveAll engine cfg varDates locations rows cols seed = (.ok res, n)) := by
  simp only [deconvolveAll]
  rw [hiv]
  dsimp only
  by_cases hc : have_confint cfg.confint = true ∧ cfg.bootstrap > 1
  · rw [if_pos (by simp [hc.1, hc.2])]
    exact ⟨⟨fun _ => rfl, fun _ => hc⟩, fun hn => absurd hc hn⟩
  · rw [if_neg (by simpa [and_comm, Bool.and_eq_true, decide_eq_true_eq] using
      fun h1 h2 => hc ⟨h1, h2⟩)]
    refine ⟨⟨fun h => absurd h hc, fun h => ?_⟩, fun _ => ⟨_, _, rfl⟩⟩
    exact absurd (congrArg Prod.fst h) (by simp)

/-- Witness for C2, failing side: bootstrap 2 with the Wald estimator fails
with the configuration error and zero engine calls. -/
theorem c2_bootstrap_confint_exclusive_witness :
    deconvolveAll (fun _ _ => (0 : Nat))
      { bootstrap := 2, confint := .wald, no_date := true, no_loc := true }
      [] [] [] [] 0 = (.error .configError, 0) :=
  ((c2_bootstrap_confint_exclusive (fun _ _ => (0 : Nat))
    { bootstrap := 2, confint := .wald, no_date := true, no_loc := true }
    [] [] [] [] 0 rfl).1).mp ⟨rfl, by decide⟩

theorem runReplicatesAux_trace {α : Type} (engine : List Row → List String → α)
    (noDate : Bool) (varDates : VarDates) (ivs : List (Rat × Option Rat))
    (cols : List String) (locRows : List Row) :
    ∀ (B : Nat) (rng : Rng),
      (runReplicatesAux engine noDate varDates ivs cols locRows B rng).2.2 =
        rngStep^[B] rng ∧
      (runReplicatesAux engine noDate varDates ivs cols locRows B rng).1 =
        (List.range B).flatMap (fun b =>
          (runWindows engine noDate varDates ivs cols
            (resampleDraw (rngStep^[b] rng) locRows)).1) := by
  intro B
  induction B with
  | zero => intro rng; exact ⟨rfl, rfl⟩
  | succ n ih =>
    intro rng
    obtain ⟨ihState, ihRes⟩ := ih (rngStep rng)
    constructor
    · show (runReplicatesAux engine noDate varDates ivs cols locRows n
          (resample_mutations rng locRows).2).2.2 = rngStep^[n + 1] rng
      rw [show (resample_mutations rng locRows).2 = rngStep rng from rfl, ihState,
        Function.iterate_succ_apply]
    · show (runWindows engine noDate varDates ivs cols
            (resample_mutations rng locRows).1).1 ++
          (runReplicatesAux engine noDate varDates ivs cols locRows n
            (resample_mutations rng locRows).2).1 =
          (List.range (n + 1)).flatMap (fun b =>
            (runWindows engine noDate varDates ivs cols
              (resampleDraw (rngStep^[b] rng) locRows)).1)
      rw [show (resample_mutations rng locRows).2 = rngStep rng from rfl, ihRes,
        List.range_succ_eq_map, List.flatMap_cons, List.flatMap_map]
      simp only [Function.comp_def, Function.iterate_succ_apply, Function.iterate_zero_apply]
      rfl

/-- C5: a run is a pure function of the seed and the inputs — two bootstrap
runs with identical seed and identical inputs produce identical output — and
the generator is seeded exactly once per run: replicate `b` consumes the state
obtained by advancing the once-seeded state `seedRng seed` exactly `b` times
(`rngStep^[b] (seedRng seed)`), not a freshly seeded state per replicate. -/
theorem c5_seed_once_deterministic {α : Type} (engine : List Row → List String → α)
    (cfg : RunConfig) (varDates : VarDates) (locations : List String)
    (rows : List Row) (cols : List String) (seed : Nat) :
    deconvolveAll engine cfg varDates locations rows cols seed =
      deconvolveAll engine cfg varDates locations rows cols seed ∧
    (∀ (B : Nat) (locRows : List Row) (ivs : List (Rat × Option Rat)),
      (runReplicatesAux engine cfg.no_date varDates ivs cols locRows B (seedRng seed)).1 =
        (List.range B).flatMap (fun b =>
          (runWindows engine cfg.no_date varDates ivs cols
            (resampleDraw (rngStep^[b] (seedRng seed)) locRows)).1) ∧
      (runReplicatesAux engine cfg.no_date varDates ivs cols locRows B (seedRng seed)).2.2 =
        rngStep^[B] (seedRng seed)) :=
  ⟨rfl, fun B locRows ivs =>
    ⟨(runReplicatesAux_trace engine cfg.no_date varDates ivs cols locRows B
        (seedRng seed)).2,
      (runReplicatesAux_trace engine cfg.no_date varDates ivs cols locRows B
        (seedRng seed)).1⟩⟩

/-! ### Aggregation of the per-slice results (lines 444-527) -/

/-- One row of the melted long-form result table `deconv_df_flat` (after
`reset_index`): location, variant, date, the estimate label (present only in
confidence-interval mode), and the `frac` value. -/
structure LongRow where
  location : String
  variant : String
  date : Rat
  estimate : Option String := none
  frac : Rat
deriving DecidableEq, Repr

/-- The grouping key `agg_columns = ["location", "variant", "index"]`. -/
abbrev AggKey := String × String × Rat

/-- Key of a long row. -/
def keyOf (r : LongRow) : AggKey := (r.location, r.variant, r.date)

/-- One row of the aggregated table `deconv_df_agg`; a `none` metric is a
missing (NaN) value. -/
structure AggRow where
  location : String
  variant : String
  date : Rat
  proportion : Option Rat
  proportionLower : Option Rat := none
  proportionUpper : Option Rat := none
deriving DecidableEq, Repr

/-- `np.mean`. -/
def listMean (xs : List Rat) : Rat := xs.sum / (xs.length : Rat)

/-- Insertion of one element into an ascending-sorted list. -/
def insertSorted (a : Rat) : List Rat → List Rat
  | [] => [a]
  | b :: t => if a ≤ b then a :: b :: t else b :: insertSorted a t

/-- Ascending sort, as `np.quantile` sorts its data. -/
def sortAsc (xs : List Rat) : List Rat := xs.foldr insertSorted []

/-- `np.quantile(xs, q)` with numpy's default linear interpolation: on the
ascending-sorted data `s`, with `h = q * (n - 1)` and `i = ⌊h⌋`, the value is
`s[i] + (h - i) * (s[i+1] - s[i])`. -/
def listQuantile (q : Rat) (xs : List Rat) : Rat :=
  let s := sortAsc xs
  let h : Rat := q * ((xs.length : Rat) - 1)
  let i := h.floor.toNat
  let lo := s.getD i 0
  let hi := s.getD (i + 1) lo
  lo + (h - (i : Rat)) * (hi - lo)

/-- The distinct grouping keys of the long rows, in first-appearance order. -/
def aggKeys (rows : List LongRow) : List AggKey := (rows.map keyOf).dedup

/-- The `frac` values of one (location, variant, date) group. -/
def groupVals (rows : List LongRow) (k : AggKey) : List Rat :=
  (rows.filter (fun r => decide (keyOf r = k))).map LongRow.frac

/-- One aggregated row of the bootstrap branch: mean and the 2.5th / 97.5th
empirical percentiles of the group. -/
def bootstrapAggRow (rows : List LongRow) (k : AggKey) : AggRow :=
  { location := k.1, variant := k.2.1, date := k.2.2,
    proportion := some (listMean (groupVals rows k)),
    proportionLower := some (listQuantile (1 / 40) (groupVals rows k)),
    proportionUpper := some (listQuantile (39 / 40) (groupVals rows k)) }

/-- The bootstrap aggregation (lines 473-493): group by
(location, variant, date) and aggregate with mean and the two quantile
lambdas. -/
def aggBootstrap (rows : List LongRow) : List AggRow :=
  (aggKeys rows).map (bootstrapAggRow rows)

/-- One aggregated row of the confidence-interval branch: the pivot of the
estimate label into the three metric columns (a label missing for a key
pivots to a missing value). -/
def confintAggRow (confintName : String) (rows : List LongRow) (k : AggKey) : AggRow :=
  let grp := rows.filter (fun r => decide (keyOf r = k))
  { location := k.1, variant := k.2.1, date := k.2.2,
    proportion := (grp.find? (fun r => r.estimate == some "MSE")).map LongRow.frac,
    proportionLower :=
      (grp.find? (fun r => r.estimate == some (confintName ++ "_lower"))).map LongRow.frac,
    proportionUpper :=
      (grp.find? (fun r => r.estimate == some (confintName ++ "_upper"))).map LongRow.frac }

/-- The confidence-interval pivot (lines 494-507). -/
def aggConfint (confintName : String) (rows : List LongRow) : List AggRow :=
  (aggKeys rows).map (confintAggRow confintName rows)

/-- The aggregation dispatch of lines 472-514: bootstrap quantile aggregation
when bootstrap > 1, the estimate pivot when a confidence estimator is
configured, pass-through otherwise. -/
def aggregateResults (bootstrap : Nat) (confint : ConfintKind) (confintName : String)
    (rows : List LongRow) : List AggRow :=
  if bootstrap > 1 then aggBootstrap rows
  else if have_confint confint then aggConfint confintName rows
  else rows.map (fun r =>
    { location := r.location, variant := r.variant, date := r.date,
      proportion := some r.frac })

/-- C6: when the bootstrap count is greater than 1, the aggregator groups the
long-form per-replicate rows by (location, variant, date) — exactly one output
row per distinct key — and emits the group mean as `proportion` and the
empirical 2.5th and 97.5th percentiles (numpy's linear-interpolation quantiles
at q = 0.025 and q = 0.975) as `proportionLower` and `proportionUpper`. -/
theorem c6_bootstrap_aggregation (bootstrap : Nat) (confint : ConfintKind)
    (confintName : String) (rows : List LongRow) (hb : bootstrap > 1) :
    aggregateResults bootstrap confint confintName rows = aggBootstrap rows ∧
    (aggKeys rows).Nodup ∧
    (∀ r ∈ rows, keyOf r ∈ aggKeys rows) ∧
    (∀ k ∈ aggKeys rows, bootstrapAggRow rows k ∈ aggBootstrap rows) ∧
    (∀ a ∈ aggBootstrap rows, ∃ k ∈ aggKeys rows, a = bootstrapAggRow rows k) ∧
    (∀ k : AggKey, bootstrapAggRow rows k =
      { location := k.1, variant := k.2.1, date := k.2.2,
        proportion := some (listMean (groupVals rows k)),
        proportionLower := some (listQuantile (1 / 40) (groupVals rows k)),
        proportionUpper := some (listQuantile (39 / 40) (groupVals rows k)) }) := by
  refine ⟨by simp [aggregateResults, hb], List.nodup_dedup _, ?_, ?_, ?_, fun k => rfl⟩
  · intro r hr
    exact List.mem_dedup.mpr (List.mem_map_of_mem keyOf hr)
  · intro k hk
    exact List.mem_map_of_mem _ hk
  · intro a ha
    obtain ⟨k, hk, he⟩ := List.mem_map.mp ha
    exact ⟨k, hk, he.symm⟩

/-- Three bootstrap replicates of one (location, variant, date) key. -/
def longRowsW : List LongRow :=
  [{ location := "Zurich", variant := "Alpha", date := 10, frac := 0 },
   { location := "Zurich", variant := "Alpha", date := 10, frac := 1 / 2 },
   { location := "Zurich", variant := "Alpha", date := 10, frac := 1 }]

/-- Witness for C6: for 100 bootstrap replicates the dispatch takes the
bootstrap branch, and on three replicate values 0, 1/2, 1 of one key it emits
mean 1/2 with percentile bounds 1/40 and 39/40. -/
theorem c6_bootstrap_aggregation_witness :
    aggregateResults 100 ConfintKind.null "" longRowsW = aggBootstrap longRowsW ∧
    aggBootstrap longRowsW =
      [{ location := "Zurich", variant := "Alpha", date := 10,
         proportion := some (1 / 2), proportionLower := some (1 / 40),
         proportionUpper := some (39 / 40) }] :=
  ⟨(c6_bootstrap_aggregation 100 ConfintKind.null "" longRowsW (by decide)).1,
    by with_unfolding_all rfl⟩

/-! ### Output forms (lines 444-447 and 529-596) -/

/-- The values of `export_columns` per aggregation mode: the metric column
names of the aggregated output besides the grouping columns. -/
def exportColumns (bootstrap : Nat) (confint : ConfintKind) : List String :=
  if bootstrap > 1 then ["date", "proportion", "proportionLower", "proportionUpper"]
  else if have_confint confint then ["date", "proportion", "proportionLower", "proportionUpper"]
  else ["date", "proportion"]

/-- The final column drop before `to_csv` (lines 559-563): `location` removed
in `no_loc` mode and `date` in `no_date` mode, applied to the long or wide
output frame alike. -/
def csvDropColumns (noLoc noDate : Bool) (cols : List String) : List String :=
  cols.filter (fun c => !((noLoc && c == "location") || (noDate && c == "date")))

/-- The JSON record keys (lines 573-575): the export columns, minus `date` in
`no_date` mode.  The source makes no `no_loc` adjustment here. -/
def jsonRecordKeys (bootstrap : Nat) (confint : ConfintKind) (noDate : Bool) : List String :=
  if noDate then (exportColumns bootstrap confint).filter (fun c => c != "date")
  else exportColumns bootstrap confint

/-- A JSON value of the serialized output. -/
inductive JVal where
  | jnull : JVal
  | jnan : JVal
  | jnum : Rat → JVal
  | jstr : String → JVal
deriving DecidableEq, Repr

/-- One record field of a `timeseriesSummary` entry: missing metric values
are numpy NaN (the source also stringifies the date; that rendering is
presentational and elided here). -/
def fieldJVal (a : AggRow) (c : String) : JVal :=
  if c = "date" then .jnum a.date
  else if c = "proportion" then
    match a.proportion with
    | some q => .jnum q
    | none => .jnan
  else if c = "proportionLower" then
    match a.proportionLower with
    | some q => .jnum q
    | none => .jnan
  else if c = "proportionUpper" then
    match a.proportionUpper with
    | some q => .jnum q
    | none => .jnan
  else .jnull

/-- The hierarchical JSON object (lines 567-591): top level keyed by the
distinct locations of the aggregated frame, then the distinct variants, each
holding its `timeseriesSummary` record list over the configured record keys.
The construction consults `no_date` (through the record keys) but never
`no_loc`: a per-location nesting key is always emitted. -/
def jsonOutput (bootstrap : Nat) (confint : ConfintKind) (noDate : Bool)
    (aggRows : List AggRow) :
    List (String × List (String × List (List (String × JVal)))) :=
  ((aggRows.map AggRow.location).dedup).map (fun loc =>
    (loc, ((aggRows.map AggRow.variant).dedup).map (fun v =>
      (v, (aggRows.filter (fun a => a.variant == v && a.location == loc)).map
        (fun a => (jsonRecordKeys bootstrap confint noDate).map
          (fun c => (c, fieldJVal a c)))))))

/-- `deconv_df.fillna(0)` at value level. -/
def fillnaJVal : JVal → JVal
  | .jnan => .jnum 0
  | v => v

/-- Lines 444-447: the concatenated per-slice values are NaN-filled with 0
before the melt reshape, but only when no confidence estimator is
configured. -/
def postConcatValues (haveConfint : Bool) (vals : List JVal) : List JVal :=
  if haveConfint then vals else vals.map fillnaJVal

/-- `json.dumps` of one value as a document token: numpy NaN prints as the
bare token `NaN` (string quoting is elided as presentational). -/
def dumpsToken : JVal → String
  | .jnull => "null"
  | .jnan => "NaN"
  | .jnum q => toString q
  | .jstr s => s

/-- The `.replace("NaN", "null")` post-processing of the dumped document
(line 595), at token level. -/
def replaceNaNTokens (ts : List String) : List String :=
  ts.map (fun t => if t = "NaN" then "null" else t)

theorem fillnaJVal_ne_jnan (v : JVal) : fillnaJVal v ≠ .jnan := by
  cases v <;> simp [fillnaJVal]

/-- C8 (amended): `no_date` suppresses the date column in the delimited
outputs and the date key in the JSON records; `no_loc` suppresses the
location column in the delimited outputs only — the hierarchical JSON always
nests by the frame's location values, independently of `no_loc`, so under
`no_loc` the synthetic `location` key remains in the JSON. -/
theorem c8_suppression_amended (bootstrap : Nat) (confint : ConfintKind) :
    (∀ cols : List String, ∀ noDate : Bool,
      (csvDropColumns true noDate cols).contains "location" = false) ∧
    (∀ cols : List String, ∀ noLoc : Bool,
      (csvDropColumns noLoc true cols).contains "date" = false) ∧
    (jsonRecordKeys bootstrap confint true).contains "date" = false ∧
    (∀ noDate : Bool, ∀ aggRows : List AggRow,
      (jsonOutput bootstrap confint noDate aggRows).map Prod.fst =
        (aggRows.map AggRow.location).dedup) := by
  refine ⟨?_, ?_, ?_, ?_⟩
  · intro cols noDate
    have h : "location" ∉ csvDropColumns true noDate cols := by
      intro hm
      rw [csvDropColumns, List.mem_filter] at hm
      simp at hm
    exact Bool.eq_false_iff.mpr (fun hc => h (List.elem_iff.mp hc))
  · intro cols noLoc
    have h : "date" ∉ csvDropColumns noLoc true cols := by
      intro hm
      rw [csvDropColumns, List.mem_filter] at hm
      simp at hm
    exact Bool.eq_false_iff.mpr (fun hc => h (List.elem_iff.mp hc))
  · have h : "date" ∉ jsonRecordKeys bootstrap confint true := by
      intro hm
      rw [jsonRecordKeys, if_pos rfl, List.mem_filter] at hm
      simp at hm
    exact Bool.eq_false_iff.mpr (fun hc => h (List.elem_iff.mp hc))
  · intro noDate aggRows
    rw [jsonOutput, List.map_map]
    simp [Function.comp_def]

/-- The aggregated row a `no_loc` run produces: every observation was stamped
with the synthetic location name `location`. -/
def aggRowNoLoc : AggRow :=
  { location := "location", variant := "Alpha", date := 10, proportion := some 1 }

/-- Counterexample to C8 as stated: under `no_loc` the location key is not
suppressed in the JSON output — the synthetic `location` nesting key is
emitted at top level. -/
theorem c8_json_location_key_not_suppressed :
    (jsonOutput 0 ConfintKind.null false [aggRowNoLoc]).map Prod.fst = ["location"] ∧
    (jsonOutput 0 ConfintKind.null false [aggRowNoLoc]).map Prod.fst ≠ [] := by
  refine ⟨by with_unfolding_all rfl, ?_⟩
  rw [(by with_unfolding_all rfl :
    (jsonOutput 0 ConfintKind.null false [aggRowNoLoc]).map Prod.fst = ["location"])]
  simp

/-- Witness for C8 (amended): the suppression facts applied at concrete
column lists and at the concrete `no_loc` aggregation row. -/
theorem c8_suppression_amended_witness :
    (csvDropColumns true false ["location", "variant", "date", "proportion"]).contains
      "location" = false ∧
    (csvDropColumns false true ["location", "variant", "date", "proportion"]).contains
      "date" = false ∧
    (jsonRecordKeys 100 ConfintKind.null true).contains "date" = false ∧
    (jsonOutput 100 ConfintKind.null false [aggRowNoLoc]).map Prod.fst =
      ([aggRowNoLoc].map AggRow.location).dedup :=
  ⟨(c8_suppression_amended 100 ConfintKind.null).1 _ false,
    (c8_suppression_amended 100 ConfintKind.null).2.1 _ false,
    (c8_suppression_amended 100 ConfintKind.null).2.2.1,
    (c8_suppression_amended 100 ConfintKind.null).2.2.2 false [aggRowNoLoc]⟩

/-- C10: when no confidence estimator is configured, every NaN among the
concatenated per-slice values is replaced by 0 before the reshape (so missing
estimates surface as proportion 0 and no NaN survives); when one is
configured the values pass through unchanged, a missing metric surfaces as
NaN in the JSON record, and the dumped `NaN` token is rewritten to JSON
`null`. -/
theorem c10_nan_fill_and_null (vals : List JVal) :
    postConcatValues false vals = vals.map fillnaJVal ∧
    (vals.map fillnaJVal).contains JVal.jnan = false ∧
    fillnaJVal .jnan = .jnum 0 ∧
    (∀ v : JVal, v ≠ .jnan → fillnaJVal v = v) ∧
    postConcatValues true vals = vals ∧
    replaceNaNTokens [dumpsToken .jnan] = ["null"] ∧
    (∀ a : AggRow, a.proportion = none → fieldJVal a "proportion" = .jnan) := by
  refine ⟨rfl, ?_, rfl, ?_, rfl, rfl, ?_⟩
  · have h : JVal.jnan ∉ vals.map fillnaJVal := by
      intro hm
      obtain ⟨v, _, hv⟩ := List.mem_map.mp hm
      exact fillnaJVal_ne_jnan v hv
    exact Bool.eq_false_iff.mpr (fun hc => h (List.elem_iff.mp hc))
  · intro v hv
    cases v <;> simp_all [fillnaJVal]
  · intro a ha
    rw [fieldJVal]
    simp [ha]

/-- Witness for C10: the NaN handling applied at a concrete value list and a
concrete aggregated row with a missing proportion. -/
theorem c10_nan_fill_and_null_witness :
    postConcatValues false [JVal.jnan, JVal.jnum 1] =
      [JVal.jnan, JVal.jnum 1].map fillnaJVal ∧
    fillnaJVal (JVal.jnum 1) = JVal.jnum 1 ∧
    fieldJVal { location := "l", variant := "v", date := 0, proportion := none }
      "proportion" = JVal.jnan :=
  ⟨(c10_nan_fill_and_null [JVal.jnan, JVal.jnum 1]).1,
    (c10_nan_fill_and_null []).2.2.2.1 (JVal.jnum 1) (by simp),
    (c10_nan_fill_and_null []).2.2.2.2.2.2 _ rfl⟩

end LolliPop
